import Mathlib

/-!
Verification of the `toridoriv/my-dev-toolkit` repository.

The TypeScript sources are embedded shallowly: strings are modelled as
`List Char`, JavaScript runtime primitives (`String.prototype.replaceAll`,
`split`, `trim`, the `/{.+?}/g` regular expression scan) are implemented as
executable Lean functions with the same semantics, and class methods become
pure functions on explicit record states.  Ambient runtime inputs (the clock,
`callsites()` stack introspection, dynamic module imports, directory walks)
are passed in as explicit parameters.
-/

namespace DevToolkit

/-! ### Character-string model (JS string primitives over `List Char`) -/

/-- `startsWith pat s` models "`s` begins with `pat`" (JS `String#startsWith`),
used as the primitive matcher for `replaceAll` and `split`. -/
def startsWith : List Char → List Char → Bool
  | [], _ => true
  | _ :: _, [] => false
  | d :: ds, c :: cs => d = c && startsWith ds cs

/-- `hasOccur pat s` decides whether `pat` occurs as a contiguous substring of
`s` (JS `String#includes`). -/
def hasOccur (pat : List Char) : List Char → Bool
  | [] => startsWith pat []
  | c :: cs => startsWith pat (c :: cs) || hasOccur pat cs

/-- Model of JS `String.prototype.replaceAll(pat, rep)` with a plain-string
pattern: scans left to right, replaces non-overlapping occurrences, and does
not rescan the replacement text.  (All call sites in the repository use a
nonempty pattern.) -/
def replaceAllL (pat rep : List Char) : List Char → List Char
  | [] => []
  | c :: cs =>
    if pat ≠ [] ∧ startsWith pat (c :: cs) = true then
      rep ++ replaceAllL pat rep ((c :: cs).drop pat.length)
    else
      c :: replaceAllL pat rep cs
termination_by s => s.length
decreasing_by
  · simp only [List.length_drop, List.length_cons]
    have hp : pat.length ≠ 0 := by
      intro h0
      exact (by assumption : pat ≠ [] ∧ _).1 (List.eq_nil_of_length_eq_zero h0)
    omega
  · simp

/-- The whitespace test used by the model of JS `String.prototype.trim`. -/
def isWsC (c : Char) : Bool := c = ' ' || c = '\t' || c = '\n' || c = '\r'

/-- Model of JS `String.prototype.trim`: drop whitespace from both ends. -/
def trimL (s : List Char) : List Char :=
  ((s.dropWhile isWsC).reverse.dropWhile isWsC).reverse

/-- Model of JS `String.prototype.split(sep)` for a nonempty plain-string
separator: the pieces strictly between the non-overlapping, leftmost
occurrences of `sep`. -/
def splitOnL (sep : List Char) : List Char → List (List Char)
  | [] => [[]]
  | c :: cs =>
    if sep ≠ [] ∧ startsWith sep (c :: cs) = true then
      [] :: splitOnL sep ((c :: cs).drop sep.length)
    else
      (splitOnL sep cs).modifyHead (c :: ·)
termination_by s => s.length
decreasing_by
  · simp only [List.length_drop, List.length_cons]
    have hp : sep.length ≠ 0 := by
      intro h0
      exact (by assumption : sep ≠ [] ∧ _).1 (List.eq_nil_of_length_eq_zero h0)
    omega
  · simp

/-- A JS line terminator (`\n`, `\r`, U+2028, U+2029): the characters the
regex metacharacter `.` does not match. -/
def isLineTerm (c : Char) : Bool :=
  c = '\n' || c = '\r' || c = Char.ofNat 0x2028 || c = Char.ofNat 0x2029

/-- Helper for the `/{.+?}/g` scan: after an opening `{` and a first content
character, consume lazily until the first `}`; fails on a line terminator
(which `.` does not match) or at end of input.  Returns the content and the
rest of the input after the closing brace. -/
def goClose (acc : List Char) : List Char → Option (List Char × List Char)
  | [] => none
  | c :: cs =>
    if c = '}' then some (acc.reverse, cs)
    else if isLineTerm c = true then none
    else goClose (c :: acc) cs

/-- Attempt to complete a `/{.+?}/g` match directly after an opening `{`:
the content must be at least one character (the first character is consumed
unconditionally unless it is a line terminator), then `goClose` looks for the
first closing `}`. -/
def tryClose : List Char → Option (List Char × List Char)
  | [] => none
  | c :: cs => if isLineTerm c = true then none else goClose [c] cs

/-- The full texts matched by the global regex `/{.+?}/g` on `s`, in order:
model of `Array.from(s.matchAll(Template.placeholderRegex)).map(v => v[0])`
from `tools/template.ts`. -/
def scanPH : List Char → List (List Char)
  | [] => []
  | c :: cs =>
    if c = '{' then
      match h : tryClose cs with
      | some (content, remaining) => ('{' :: (content ++ ['}'])) :: scanPH remaining
      | none => scanPH cs
    else
      scanPH cs
termination_by s => s.length
decreasing_by
  · have : remaining.length < cs.length := by
      rcases cs with _ | ⟨c0, cs0⟩
      · simp [tryClose] at h
      · simp only [tryClose] at h
        split at h
        · exact absurd h (by simp)
        · have aux : ∀ a l r c', goClose a l = some (c', r) → r.length < l.length := by
            intro a l
            induction l generalizing a with
            | nil => intro r c' hg; simp [goClose] at hg
            | cons x xs ih =>
              intro r c' hg
              simp only [goClose] at hg
              split at hg
              · cases hg; simp
              · split at hg
                · cases hg
                · have := ih _ _ _ hg
                  simp only [List.length_cons]
                  omega
          have := aux _ _ _ _ h
          simp only [List.length_cons]
          omega
    simp only [List.length_cons]
    omega
  · simp
  · simp

/-- Model of `match.replace(c, "")` for a single-character pattern: remove the
first occurrence of `c` (used by `PrettyLogger.substitute` to derive the key
from the matched text). -/
def removeFirstC (c : Char) : List Char → List Char
  | [] => []
  | x :: xs => if x = c then xs else x :: removeFirstC c xs

/-! ### `tools/template.ts` — the `Template` class

A template is its string value together with the `replacements` defaults map
(given to the constructor, stored as `this.replacements`).  Replacement maps
are association lists in JS object insertion order; values are already coerced
to strings, as `replaceAll(template, rep[key] as string)` does. -/

structure TemplateL where
  value : List Char
  replacements : List (List Char × List Char)
deriving DecidableEq, Repr

/-- Association-list lookup, modelling JS property access `rep[key]`. -/
def lookupRep (k : List Char) : List (List Char × List Char) → Option (List Char)
  | [] => none
  | kv :: rest => if kv.1 = k then kv.2 else lookupRep k rest

/-- Model of `deepMerge(this.replacements, replacements)` on flat string maps:
the defaults' keys first (values overridden by `replacements` where present),
then the keys only present in `replacements`, in insertion order. -/
def mergeReps (defaults reps : List (List Char × List Char)) :
    List (List Char × List Char) :=
  defaults.map (fun kv =>
    (kv.1, match lookupRep kv.1 reps with | some w => w | none => kv.2)) ++
  reps.filter (fun kv => (lookupRep kv.1 defaults).isNone)

/-- The `for (const key in rep) { endValue = endValue.replaceAll(...) }` loop
of `Template.#render`: substitute `{key}` for each entry in order. -/
def substAll (reps : List (List Char × List Char)) (v : List Char) : List Char :=
  reps.foldl (fun acc kv => replaceAllL ('{' :: (kv.1 ++ ['}'])) kv.2 acc) v

/-- `Template.#render(replacements, useDefaults)`: merge with the stored
defaults when `useDefaults`, substitute every entry, then `trim()`. -/
def renderRawL (t : TemplateL) (reps : List (List Char × List Char))
    (useDefaults : Bool) : List Char :=
  trimL (substAll (if useDefaults then mergeReps t.replacements reps else reps) t.value)

/-- The payload of the `cause` option of the error thrown by
`Template.#validate`. -/
structure RenderErrorCause where
  template : List Char
  result : List Char
  missingReplacements : List (List Char)
deriving DecidableEq, Repr

/-- `Template.render(replacements)`: substitute with defaults, then
`#validate` — throw (model: `Except.error`) when any `/{.+?}/g` match remains,
carrying the template, the partial result and the leftover placeholders. -/
def renderL (t : TemplateL) (reps : List (List Char × List Char)) :
    Except RenderErrorCause (List Char) :=
  let result := renderRawL t reps true
  let placeholders := scanPH result
  if placeholders = [] then .ok result
  else .error ⟨t.value, result, placeholders⟩

/-- `Template.partialRender(replacements)` (named `renderSubset` here because
of lexical restrictions on declaration names): substitute only the given
entries (`useDefaults = false`) and build a new `Template` whose defaults are
`filterKeys(this.replacements, k => !(k in replacements))`. -/
def renderSubset (t : TemplateL) (reps : List (List Char × List Char)) : TemplateL :=
  { value := renderRawL t reps false
    replacements :=
      t.replacements.filter (fun kv => (lookupRep kv.1 reps).isNone) }

/-! ### `tools/git.ts` — `Git.log` output parsing and `parseDate` -/

/-- The literal delimiter `{"hash"` used by `Git.#parseLogOutput` to split the
raw `git log` output into per-commit JSON fragments. -/
def logDelim : List Char := '{' :: ("\"hash\"".toList)

/-- `Git.#parseLogOutput(output)`: split at the delimiter, drop empty pieces
(`filter(Boolean)`), re-prepend the delimiter to every piece, and parse each
fragment into one commit record.  `JSON.parse` composed with
`CommitSchema.parse` is the abstract `parse` parameter. -/
def parseLogOutputL {α : Type} (parse : List Char → α) (output : List Char) :
    List α :=
  (((splitOnL logDelim output).filter (fun v => v ≠ [])).map
    (fun v => parse (logDelim ++ v)))

/-- Model of the JS `Number(string)` coercion restricted to the inputs the
commit-timestamp preprocessor can receive: optional surrounding whitespace,
optional sign, a run of decimal digits (the empty/whitespace-only string
coerces to `0`); everything else — in particular any textual date — is `NaN`
(`none`). -/
def jsNumberOfString (s : List Char) : Option Int :=
  let core := (trimL s)
  if core = [] then some 0
  else
    let (sign, digits) :=
      match core with
      | '-' :: rest => ((-1 : Int), rest)
      | '+' :: rest => ((1 : Int), rest)
      | rest => ((1 : Int), rest)
    if digits ≠ [] ∧ digits.all Char.isDigit then
      some (sign * (digits.foldl (fun acc c => acc * 10 + (c.toNat - '0'.toNat)) 0 : Nat))
    else none

/-- Result of `parseDate` in `tools/git.ts`: either a `Date` built from a
count of epoch milliseconds, or a `Date` built by the string parser
`new Date(string)` (kept symbolic: the platform date parser is opaque). -/
inductive JsDate where
  | ofEpochMs (ms : Int)
  | ofDateString (s : List Char)
deriving DecidableEq, Repr

/-- `parseDate(date)` from `tools/git.ts`: coerce with `Number`; when the
result is not `NaN`, build `new Date(asNumber * 1000)` (Unix seconds),
otherwise fall back to `new Date(date as string)`. -/
def parseDate (date : List Char) : JsDate :=
  match jsNumberOfString date with
  | some n => .ofEpochMs (n * 1000)
  | none => .ofDateString date

/-! ### `tools/logger.ts` — severities, `LogObject`, `BaseLogger.log`

`callsites()` stack introspection, the clock and `Deno.args` are runtime
inputs; they enter the model as explicit parameters. -/

/-- `LoggerConfig.SeverityName`. -/
inductive SeverityName where
  | Silent
  | Debug
  | Informational
  | Warning
  | Error
deriving DecidableEq, Repr

/-- `LoggerConfig.SeverityLevel`: the numeric level of each severity name. -/
def SeverityLevel : SeverityName → Nat
  | .Silent => 0
  | .Debug => 1
  | .Informational => 2
  | .Warning => 3
  | .Error => 4

/-- `LoggerConfig.LevelName` (the display level of a log call). -/
inductive LevelName where
  | Error
  | Warn
  | Info
  | Http
  | Debug
deriving DecidableEq, Repr

/-- An entry of the `callsites()` result (`ExpandedCallSite`), restricted to
the properties the logger reads. -/
structure ExpandedCallSite where
  fileName : String
  lineNumber : Nat
  columnNumber : Nat
deriving DecidableEq, Repr

/-- The duck-typed `LogObject.Error` input: a JS value that may or may not be
a real `Error` instance (`instanceof Error`) and carries optional `code`,
`id`, `message`, `name` and `title` properties. -/
structure ErrorInput where
  isErrorInstance : Bool
  code : Option String := none
  id : Option String := none
  message : Option String := none
  name : Option String := none
  title : Option String := none
deriving DecidableEq, Repr

/-- The `LogObject.Request` input; `get("content-type")` / `get("referrer")`
are modelled by the two header fields. -/
structure RequestInput where
  httpVersion : Option String := none
  id : Option String := none
  method : Option String := none
  contentType : Option String := none
  referrer : Option String := none
  originalUrl : Option String := none
deriving DecidableEq, Repr

/-- The `LogObject.Response` input. -/
structure ResponseInput where
  duration : Option Rat := none
  contentType : Option String := none
  statusCode : Option Nat := none
deriving DecidableEq, Repr

/-- The `LogObject` class of `src/tools/logger.ts`: one flat structured log
record.  Field initialisers mirror the class-property initialisers
(`"log.level"` starts as the empty string, modelled as `none`; `"log.logger"`
starts as `"unknown"`; optional fields start `undefined`). -/
structure LogObject where
  timestamp : String
  logLevel : Option LevelName := none
  message : String := ""
  data : Option (List String) := none
  labels : Option (List (String × String)) := none
  tags : Option (List String) := none
  logLogger : String := "unknown"
  originFileColumn : Nat := 0
  originFileLine : Nat := 0
  originFileName : String := ""
  originFilePath : String := ""
  errorCode : Option String := none
  errorId : Option String := none
  errorMessage : Option String := none
  errorStackTrace : Option (List ExpandedCallSite) := none
  errorType : Option String := none
  serviceName : Option String := none
  serviceVersion : Option String := none
  serviceEnvironment : Option String := none
  serviceId : Option String := none
  processArgs : List String := []
  eventDuration : Option Rat := none
  httpVersion : Option String := none
  httpRequestId : Option String := none
  httpRequestMethod : Option String := none
  httpRequestMimeType : Option String := none
  httpRequestReferrer : Option String := none
  httpRequestUrlOriginal : Option String := none
  httpResponseMimeType : Option String := none
  httpResponseStatusCode : Option Nat := none
deriving DecidableEq, Repr

/-- `LogObject.setErrorFields(error)` from `src/tools/logger.ts`: copy
`message`, `code`, `id` and `name` verbatim; when the value is a real `Error`
instance additionally record `callsites(error)` (the `stack` parameter). -/
def LogObject.setErrorFields (o : LogObject) (e : ErrorInput)
    (stack : List ExpandedCallSite) : LogObject :=
  let o := { o with
    errorMessage := e.message
    errorCode := e.code
    errorId := e.id
    errorType := e.name }
  if e.isErrorInstance then { o with errorStackTrace := some stack } else o

/-- `LogObject.setBaseFields(message, data, labels, tags)`. -/
def LogObject.setBaseFields (o : LogObject) (message : String)
    (data : Option (List String)) (labels : Option (List (String × String)))
    (tags : Option (List String)) : LogObject :=
  { o with message := message, data := data, labels := labels, tags := tags }

/-- `fileName.substring(fileName.lastIndexOf("/") + 1)`. -/
def afterLastSlash (l : List Char) : List Char :=
  l.foldl (fun acc c => if c = '/' then [] else acc ++ [c]) []

/-- `LogObject.setLogFields(level, logger)` from `src/tools/logger.ts`.  The
code takes `origin` to be the last entry of `callsites(...)`; that entry is
the `origin` parameter here. -/
def LogObject.setLogFields (o : LogObject) (level : LevelName) (logger : String)
    (origin : ExpandedCallSite) : LogObject :=
  { o with
    logLevel := some level
    logLogger := logger
    originFileColumn := origin.columnNumber
    originFileLine := origin.lineNumber
    originFileName := String.mk (afterLastSlash origin.fileName.toList)
    originFilePath := origin.fileName }

/-- `LogObject.setRequestFields(request)`. -/
def LogObject.setRequestFields (o : LogObject) (r : RequestInput) : LogObject :=
  { o with
    httpVersion := r.httpVersion
    httpRequestId := r.id
    httpRequestMethod := r.method
    httpRequestMimeType := r.contentType
    httpRequestReferrer := r.referrer
    httpRequestUrlOriginal := r.originalUrl }

/-- `LogObject.setResponseFields(response)`; `response.duration || 0.1` falls
back on a missing or zero (falsy) duration. -/
def LogObject.setResponseFields (o : LogObject) (r : ResponseInput) : LogObject :=
  { o with
    eventDuration := some (match r.duration with
      | some d => if d = 0 then (1 : Rat) / 10 else d
      | none => (1 : Rat) / 10)
    httpResponseMimeType := r.contentType
    httpResponseStatusCode := r.statusCode }

/-- `LogObject.setServiceFields(environment, name, version, id)`. -/
def LogObject.setServiceFields (o : LogObject) (environment : String)
    (name version id : Option String) : LogObject :=
  { o with
    serviceEnvironment := some environment
    serviceName := name
    serviceVersion := version
    serviceId := id }

/-- The `LogObject` constructor: start from the field initialisers (the
timestamp is `formatDate(new Date(), ...)`, passed in as `now`; `process.args`
is `Deno.args`, passed in as `procArgs`) and apply the three conditional
setters. -/
def LogObject.construct (now : String) (procArgs : List String)
    (error : Option ErrorInput) (request : Option RequestInput)
    (response : Option ResponseInput) (stack : List ExpandedCallSite) :
    LogObject :=
  let o : LogObject := { timestamp := now, processArgs := procArgs }
  let o := match error with
    | some e => o.setErrorFields e stack
    | none => o
  let o := match request with
    | some r => o.setRequestFields r
    | none => o
  let o := match response with
    | some r => o.setResponseFields r
    | none => o
  o

/-- The logger settings after `SettingsSchema.parse`, restricted to the fields
`BaseLogger.log` and `isSilentMode` read. -/
structure Settings where
  severity : SeverityName
  application : String
  environment : String
  module : Option String := none
  id : Option String := none
  version : Option String := none
deriving DecidableEq, Repr

/-- `BaseLogger.isSilentMode(severity)`: always silent when configured
`SILENT`, otherwise silent when the call's severity is below the configured
level (`this.severityLevel = SeverityLevel[settings.severity]`). -/
def isSilentMode (s : Settings) (severity : SeverityName) : Bool :=
  if s.severity = SeverityName.Silent then true
  else SeverityLevel severity < SeverityLevel s.severity

/-- The options record passed to `BaseLogger.log`. -/
structure LogOptions where
  message : String
  args : Option (List String) := none
  error : Option ErrorInput := none
  request : Option RequestInput := none
  response : Option ResponseInput := none
deriving DecidableEq, Repr

/-- The logger name: `settings.application`, plus `:module` when a module is
configured. -/
def loggerNameOf (s : Settings) : String :=
  match s.module with
  | some m => s.application ++ ":" ++ m
  | none => s.application

/-- `BaseLogger.log(severity, level, options)` from `src/tools/logger.ts`:
build the fully populated record first, then gate on `isSilentMode` — a
suppressed call returns the record without invoking any transport, an emitted
call passes `format(logObject)` to the severity's transport.  The second
component models the transport invocation: `none` when no transport was
called, `some (severityName, formatted)` otherwise. -/
def BaseLogger.log (format : LogObject → String) (s : Settings) (now : String)
    (procArgs : List String) (stack : List ExpandedCallSite)
    (origin : ExpandedCallSite) (severity : SeverityName) (level : LevelName)
    (options : LogOptions) : LogObject × Option (SeverityName × String) :=
  let logObject :=
    ((((LogObject.construct now procArgs options.error options.request
        options.response stack).setBaseFields
      options.message options.args none none).setLogFields
      level (loggerNameOf s) origin).setServiceFields
      s.environment (some s.application) s.version s.id)
  if isSilentMode s severity then (logObject, none)
  else (logObject, some (severity, format logObject))

/-! ### The older logger generation (`src/unnamed/part_003`)

The repository also carries an earlier revision of the logger.  It differs
from `src/tools/logger.ts` in two ways relevant to the claims: its
`BaseLogger.log` returns a freshly default-constructed `LogObject` when the
call is suppressed (the populated record is only built on the emitting path),
and its `setErrorFields` stores `error.name` into `error.id` — and never sets
`error.code` — when the value is a real `Error` instance. -/

/-- The origin record produced by `getLastFileStack` in the older logger
(`{ column, line, filename, path }`, with `Number(...)`-coerced positions). -/
structure OriginOld where
  column : Int
  line : Int
  filename : String
  path : String
deriving DecidableEq, Repr

/-- The `LogObject` class of the older logger: `error.stack_trace` is a
comma-joined string and there is no `error.type` field. -/
structure LogObjectOld where
  timestamp : String
  logLevel : Option LevelName := none
  message : String := ""
  data : Option (List String) := none
  labels : Option (List (String × String)) := none
  tags : Option (List String) := none
  logLogger : String := "unknown"
  originFileColumn : Int := 0
  originFileLine : Int := 0
  originFileName : String := ""
  originFilePath : String := ""
  errorCode : Option String := none
  errorId : Option String := none
  errorMessage : Option String := none
  errorStackTrace : Option String := none
  serviceName : Option String := none
  serviceVersion : Option String := none
  serviceEnvironment : Option String := none
  serviceId : Option String := none
  processArgs : List String := []
  eventDuration : Option Rat := none
  httpVersion : Option String := none
  httpRequestId : Option String := none
  httpRequestMethod : Option String := none
  httpRequestMimeType : Option String := none
  httpRequestReferrer : Option String := none
  httpRequestUrlOriginal : Option String := none
  httpResponseMimeType : Option String := none
  httpResponseStatusCode : Option Nat := none
deriving DecidableEq, Repr

/-- `setErrorFields(error)` of the older logger.  `stackErr` models
`getStackTrace(error)` (the filtered, formatted lines of `error.stack`) and
`stackHere` models the zero-argument `getStackTrace()` at the call site.  On
the non-`Error` branch `error.message` is assigned twice; the second
assignment (the newline-joined stack) wins. -/
def LogObjectOld.setErrorFields (o : LogObjectOld) (e : ErrorInput)
    (stackErr stackHere : List String) : LogObjectOld :=
  if e.isErrorInstance then
    { o with
      errorId := e.name
      errorMessage := e.message
      errorStackTrace := some (String.intercalate ", " stackErr) }
  else
    { o with
      errorCode := e.code
      errorId := e.id
      errorMessage := some (String.intercalate "\n" stackHere)
      errorStackTrace := some (String.intercalate ", " stackHere) }

/-- `setBaseFields` of the older logger (identical to the current one). -/
def LogObjectOld.setBaseFields (o : LogObjectOld) (message : String)
    (data : Option (List String)) (labels : Option (List (String × String)))
    (tags : Option (List String)) : LogObjectOld :=
  { o with message := message, data := data, labels := labels, tags := tags }

/-- `setLogFields(level, logger)` of the older logger; `origin` is the result
of `getLastFileStack(...)`. -/
def LogObjectOld.setLogFields (o : LogObjectOld) (level : LevelName)
    (logger : String) (origin : OriginOld) : LogObjectOld :=
  { o with
    logLevel := some level
    logLogger := logger
    originFileColumn := origin.column
    originFileLine := origin.line
    originFileName := origin.filename
    originFilePath := origin.path }

/-- `setServiceFields` of the older logger (identical to the current one). -/
def LogObjectOld.setServiceFields (o : LogObjectOld) (environment : String)
    (name version id : Option String) : LogObjectOld :=
  { o with
    serviceEnvironment := some environment
    serviceName := name
    serviceVersion := version
    serviceId := id }

/-- The older `LogObject` constructor (request/response setters omitted here:
the claims under consideration only exercise the error path and the
no-argument construction used by the suppression branch). -/
def LogObjectOld.construct (now : String) (procArgs : List String)
    (error : Option ErrorInput) (stackErr stackHere : List String) :
    LogObjectOld :=
  let o : LogObjectOld := { timestamp := now, processArgs := procArgs }
  match error with
  | some e => o.setErrorFields e stackErr stackHere
  | none => o

/-- `BaseLogger.log` of the older logger (`src/unnamed/part_003`): the
`isSilentMode` gate comes first and returns `new LogObject()` — a record with
only the default field values — without building the populated record. -/
def BaseLoggerOld.log (format : LogObjectOld → String) (s : Settings)
    (now : String) (procArgs : List String) (stackErr stackHere : List String)
    (origin : OriginOld) (severity : SeverityName) (level : LevelName)
    (options : LogOptions) : LogObjectOld × Option (SeverityName × String) :=
  if isSilentMode s severity then
    ({ timestamp := now, processArgs := procArgs }, none)
  else
    let logObject :=
      (((LogObjectOld.construct now procArgs options.error stackErr
          stackHere).setBaseFields
        options.message options.args none none).setLogFields
        level (loggerNameOf s) origin).setServiceFields
        s.environment (some s.application) s.version s.id
    (logObject, some (severity, format logObject))

/-! ### `PrettyLogger.substitute` — pretty-mode placeholder substitution -/

/-- The JS values a log-record field can contribute to template substitution
(`substitutions[key]` where `substitutions` is the `LogObject`). -/
inductive JsVal where
  | vStr (s : List Char)
  | vNum (n : Rat)
  | vUndef
deriving DecidableEq, Repr

/-- JS truthiness test: `undefined`, the empty string and the number `0` are
falsy. -/
def JsVal.falsy : JsVal → Bool
  | .vStr s => s = []
  | .vNum n => n = 0
  | .vUndef => true

/-- String coercion applied by `String.prototype.replace` to a truthy
substitution value. -/
def jsValToString : JsVal → List Char
  | .vStr s => s
  | .vNum n => (toString n).toList
  | .vUndef => "undefined".toList

/-- `PrettyLogger.substitute(value, substitutions)`: replace every
`/{(.+?)}/g` match; the key is the match text with its first `{` and first
`}` removed; a falsy substitution keeps the literal match text. -/
def substituteL (subs : List Char → JsVal) : List Char → List Char
  | [] => []
  | c :: cs =>
    if c = '{' then
      match h : tryClose cs with
      | some (content, remaining) =>
        let matched := '{' :: (content ++ ['}'])
        let key := removeFirstC '}' (removeFirstC '{' matched)
        (if (subs key).falsy then matched else jsValToString (subs key)) ++
          substituteL subs remaining
      | none => c :: substituteL subs cs
    else
      c :: substituteL subs cs
termination_by s => s.length
decreasing_by
  · have : remaining.length < cs.length := by
      rcases cs with _ | ⟨c0, cs0⟩
      · simp [tryClose] at h
      · simp only [tryClose] at h
        split at h
        · exact absurd h (by simp)
        · have aux : ∀ a l r c', goClose a l = some (c', r) → r.length < l.length := by
            intro a l
            induction l generalizing a with
            | nil => intro r c' hg; simp [goClose] at hg
            | cons x xs ih =>
              intro r c' hg
              simp only [goClose] at hg
              split at hg
              · cases hg; simp
              · split at hg
                · cases hg
                · have := ih _ _ _ hg
                  simp only [List.length_cons]
                  omega
          have := aux _ _ _ _ h
          simp only [List.length_cons]
          omega
    simp only [List.length_cons]
    omega
  · simp
  · simp

/-! ### Command discovery and registration (`src/unnamed/part_000`)

The runner builds its subcommand list from a directory walk plus a fixed list
of remote default scripts.  The ambient runtime — the outcome of
`getLocalPaths(env.BIN_DIR, ...)` and the exports produced by
`getAllModuleImports(path)` — is a `World` parameter. -/

/-- `tryCatch(fn, fallback)` from `tools/try-catch.ts`: the function's value,
or the fallback when it throws. -/
def tryCatch {α : Type} (fn : Except String α) (fallback : α) : α :=
  match fn with
  | .ok a => a
  | .error _ => fallback

/-- A validated command descriptor (`name` and `description` are the fields
the duck-type check and `toCliffy` read). -/
structure CommandSpec where
  name : String
  description : String
deriving DecidableEq, Repr

/-- An exported value of a dynamically imported module, as seen by the
duck-type check `isCommandOptions`. -/
inductive JsExport where
  | nonObject
  | obj (hasName hasDescription : Bool) (spec : CommandSpec)
deriving DecidableEq, Repr

/-- `isCommandOptions(value)`: an object carrying both a `name` and a
`description` property. -/
def isCommandOptions : JsExport → Bool
  | .nonObject => false
  | .obj hasName hasDescription _ => hasName && hasDescription

/-- A registered cliffy command (name and description; flags, arguments and
the action are attached verbatim and play no role in the claims). -/
structure CliffyCommand where
  name : String
  description : String
deriving DecidableEq, Repr

/-- `toCliffy(options)`: build the cliffy command from the descriptor.  (The
`nonObject` case is unreachable behind the `isCommandOptions` filter.) -/
def toCliffy : JsExport → CliffyCommand
  | .obj _ _ spec => ⟨spec.name, spec.description⟩
  | .nonObject => ⟨"", ""⟩

/-- The ambient runtime of the runner: the outcome of listing the scripts
directory and the exports of each importable path. -/
structure World where
  listing : Except String (List String)
  moduleImports : String → List JsExport

/-- The fixed remote fallback scripts
(`["init-deno.ts"].map(p => "https://cdn.jsdelivr.net/..." + p)`). -/
def defaultPaths : List String :=
  ["init-deno.ts"].map
    (fun p => "https://cdn.jsdelivr.net/gh/toridoriv/my-dev-toolkit@main/bin/" ++ p)

/-- `localPaths` from `src/unnamed/part_000`:
`tryCatch(getLocalPaths.bind(null, env.BIN_DIR, {skip: [/^_/]}), [])`. -/
def localPaths (w : World) : List String :=
  tryCatch w.listing []

/-- The discovery pipeline applied to a list of paths: import every module,
flatten the exports, keep the values shaped like command descriptors, adapt
them. -/
def subcommandsOfPaths (w : World) (paths : List String) : List CliffyCommand :=
  (((paths.map w.moduleImports).flatten).filter isCommandOptions).map toCliffy

/-- The `subcommands` constant of `src/unnamed/part_000`: the pipeline over
`localPaths.concat(...defaultPaths)`. -/
def subcommands (w : World) : List CliffyCommand :=
  subcommandsOfPaths w (localPaths w ++ defaultPaths)

/-- The root command with its registered subcommands
(`registerSubcommands(run, subcommands)`). -/
structure RootCli where
  commands : List CliffyCommand
deriving DecidableEq, Repr

/-- Outcome of `run.parse(Deno.args)`: the bare root command shows help; a
first argument selects the registered subcommand of that name, or fails as an
unknown command. -/
inductive ParseOutcome where
  | showedHelp
  | ranCommand (name : String)
  | unknownCommand (name : String)
deriving DecidableEq, Repr

/-- `registerSubcommands(command, subcommands)`. -/
def registerSubcommands (root : RootCli) (subs : List CliffyCommand) : RootCli :=
  { root with commands := root.commands ++ subs }

/-- Model of the cliffy argument parse on the registered root command. -/
def parseCli (root : RootCli) (args : List String) : ParseOutcome :=
  match args with
  | [] => .showedHelp
  | cmd :: _ =>
    match root.commands.find? (fun c => c.name = cmd) with
    | some c => .ranCommand c.name
    | none => .unknownCommand cmd

/-- The whole runner of `src/unnamed/part_000`: discovery, registration,
parse.  Total — a listing failure was already absorbed by `tryCatch`. -/
def runCli (w : World) (args : List String) : ParseOutcome :=
  parseCli (registerSubcommands { commands := [] } (subcommands w)) args

/-- The older runner `src/bin/run.ts` builds its subcommand list as
`getLocalPaths(BIN_DIR, {}).map(getAllModuleImports)...` with no `tryCatch`
and no default paths: a listing failure propagates and aborts the CLI. -/
def subcommandsBinRun (w : World) : Except String (List CliffyCommand) :=
  w.listing.map (fun paths => subcommandsOfPaths w paths)

/-! ### Statement helpers

A pretty-mode template, for the purpose of stating what
`PrettyLogger.substitute` produces, is a list of segments — literal text
followed by one `{name}` placeholder — plus trailing literal text. -/

/-- Assemble the template text of a segment list: each segment contributes
its literal text and a `{name}` placeholder. -/
def buildTemplate : List (List Char × List Char) → List Char → List Char
  | [], tail => tail
  | (txt, name) :: rest, tail =>
    txt ++ ('{' :: (name ++ ['}'])) ++ buildTemplate rest tail

/-- The expected output of `PrettyLogger.substitute` on such a template: a
placeholder whose substitution value is falsy keeps its literal `{name}`
text, a truthy one is replaced by the string coercion of its value. -/
def substExpected (subs : List Char → JsVal) :
    List (List Char × List Char) → List Char → List Char
  | [], tail => tail
  | (txt, name) :: rest, tail =>
    txt ++
      (if (subs name).falsy = true then '{' :: (name ++ ['}'])
        else jsValToString (subs name)) ++
      substExpected subs rest tail

/-! ## Supporting lemmas -/

theorem startsWith_iff (p s : List Char) :
    startsWith p s = true ↔ ∃ t, s = p ++ t := by
  induction p generalizing s with
  | nil => simpa [startsWith] using ⟨s, rfl⟩
  | cons d ds ih =>
    cases s with
    | nil => simp [startsWith]
    | cons c cs =>
      simp only [startsWith, Bool.and_eq_true, decide_eq_true_eq, ih]
      constructor
      · rintro ⟨rfl, t, rfl⟩
        exact ⟨t, rfl⟩
      · rintro ⟨t, h⟩
        injection h with h1 h2
        exact ⟨h1.symm, t, h2⟩

theorem hasOccur_iff (p s : List Char) :
    hasOccur p s = true ↔ ∃ u v, s = u ++ p ++ v := by
  induction s with
  | nil =>
    rw [hasOccur, startsWith_iff]
    constructor
    · rintro ⟨t, ht⟩
      exact ⟨[], t, by simpa using ht⟩
    · rintro ⟨u, v, huv⟩
      obtain ⟨hup, -⟩ := List.append_eq_nil.mp huv.symm
      obtain ⟨-, hp⟩ := List.append_eq_nil.mp hup
      exact ⟨[], by simp [hp]⟩
  | cons c cs ih =>
    rw [hasOccur, Bool.or_eq_true, startsWith_iff, ih]
    constructor
    · rintro (⟨t, ht⟩ | ⟨u, v, huv⟩)
      · exact ⟨[], t, by simpa using ht⟩
      · exact ⟨c :: u, v, by simp [huv]⟩
    · rintro ⟨u, v, h⟩
      cases u with
      | nil => exact Or.inl ⟨v, by simpa using h⟩
      | cons a u' =>
        injection h with h1 h2
        exact Or.inr ⟨u', v, h2⟩

theorem hasOccur_append_right (p b w : List Char) (h : hasOccur p b = true) :
    hasOccur p (b ++ w) = true := by
  rcases (hasOccur_iff p b).mp h with ⟨u, v, rfl⟩
  exact (hasOccur_iff p _).mpr ⟨u, v ++ w, by simp⟩

theorem isSilentMode_false_iff (s : Settings) (sev : SeverityName) :
    isSilentMode s sev = false ↔
      (s.severity ≠ SeverityName.Silent ∧
        SeverityLevel s.severity ≤ SeverityLevel sev) := by
  cases hs : s.severity <;> cases sev <;>
    simp [isSilentMode, hs, SeverityLevel]

/-! ## Claim theorems -/

/-- **C3.** Severities are totally ordered
`Silent(0) < Debug(1) < Informational(2) < Warning(3) < Error(4)`, and for
every logger with configured severity `s` and every log call of severity `v`,
the transport is invoked if and only if `s` is not `Silent` and the level of
`v` is at least the level of `s`. -/
theorem C3_severity_order_and_gating :
    (SeverityLevel .Silent = 0 ∧ SeverityLevel .Debug = 1 ∧
      SeverityLevel .Informational = 2 ∧ SeverityLevel .Warning = 3 ∧
      SeverityLevel .Error = 4 ∧
      SeverityLevel .Silent < SeverityLevel .Debug ∧
      SeverityLevel .Debug < SeverityLevel .Informational ∧
      SeverityLevel .Informational < SeverityLevel .Warning ∧
      SeverityLevel .Warning < SeverityLevel .Error) ∧
    ∀ (format : LogObject → String) (s : Settings) (now : String)
      (procArgs : List String) (stack : List ExpandedCallSite)
      (origin : ExpandedCallSite) (severity : SeverityName) (level : LevelName)
      (options : LogOptions),
      ((BaseLogger.log format s now procArgs stack origin severity level
          options).2.isSome = true ↔
        (s.severity ≠ SeverityName.Silent ∧
          SeverityLevel s.severity ≤ SeverityLevel severity)) := by
  refine ⟨by decide, ?_⟩
  intro format s now procArgs stack origin severity level options
  rw [← isSilentMode_false_iff s severity]
  unfold BaseLogger.log
  cases h : isSilentMode s severity <;> simp [h]

/-- Witness for C3: with configured severity `WARNING`, an `error`-severity
call does reach a transport. -/
theorem C3_witness :
    (BaseLogger.log (fun _ => "") ⟨SeverityName.Warning, "run", "", none, none, none⟩
      "t" [] [] ⟨"f.ts", 1, 1⟩ SeverityName.Error LevelName.Error
      ⟨"boom", none, none, none, none⟩).2.isSome = true :=
  (C3_severity_order_and_gating.2 (fun _ => "")
      ⟨SeverityName.Warning, "run", "", none, none, none⟩ "t" [] [] ⟨"f.ts", 1, 1⟩
      SeverityName.Error LevelName.Error ⟨"boom", none, none, none, none⟩).mpr
    ⟨by decide, by decide⟩

/-- **C7.** `parseDate` interprets a value whose `Number(...)` coercion is not
`NaN` as Unix seconds — the date is that number times 1000 milliseconds since
the epoch — and otherwise parses the value as a date string. -/
theorem C7_timestamp_coercion (s : List Char) :
    (∀ n, jsNumberOfString s = some n → parseDate s = JsDate.ofEpochMs (n * 1000)) ∧
    (jsNumberOfString s = none → parseDate s = JsDate.ofDateString s) := by
  constructor
  · intro n h
    simp [parseDate, h]
  · intro h
    simp [parseDate, h]

/-- Witness for C7: a digit-string timestamp becomes epoch seconds × 1000; a
textual date falls back to the string parser. -/
theorem C7_witness :
    parseDate ("1700000000".toList) = JsDate.ofEpochMs 1700000000000 ∧
    parseDate ("Mon Oct 2 2023".toList) =
      JsDate.ofDateString ("Mon Oct 2 2023".toList) :=
  ⟨by
    have h := (C7_timestamp_coercion ("1700000000".toList)).1 1700000000 (by decide)
    simpa using h,
   (C7_timestamp_coercion ("Mon Oct 2 2023".toList)).2 (by decide)⟩

/-- **C4.** `Template.render` returns normally if and only if no `{...}`
placeholder remains in the substituted string; when at least one placeholder
remains it throws an error whose cause carries the original template string,
the partially substituted result, and the list of missing placeholders. -/
theorem C4_render_validation (t : TemplateL) (reps : List (List Char × List Char)) :
    (renderL t reps = .ok (renderRawL t reps true) ↔
      scanPH (renderRawL t reps true) = []) ∧
    (∀ r, renderL t reps = .ok r → r = renderRawL t reps true ∧ scanPH r = []) ∧
    (∀ e, renderL t reps = .error e →
      e.template = t.value ∧ e.result = renderRawL t reps true ∧
      e.missingReplacements = scanPH (renderRawL t reps true) ∧
      e.missingReplacements ≠ []) := by
  have hdef : renderL t reps =
      if scanPH (renderRawL t reps true) = [] then
        Except.ok (renderRawL t reps true)
      else
        Except.error ⟨t.value, renderRawL t reps true,
          scanPH (renderRawL t reps true)⟩ := rfl
  by_cases h : scanPH (renderRawL t reps true) = []
  · rw [hdef, if_pos h]
    refine ⟨⟨fun _ => h, fun _ => rfl⟩, fun r hr => ?_, fun e he => by cases he⟩
    cases hr
    exact ⟨rfl, h⟩
  · rw [hdef, if_neg h]
    refine ⟨⟨fun hc => (by cases hc), fun hc => absurd hc h⟩,
      fun r hr => (by cases hr), fun e he => ?_⟩
    cases he
    exact ⟨rfl, rfl, rfl, h⟩

/-- Witness for C4: a fully replaced template renders successfully. -/
theorem C4_witness :
    renderL ⟨("Hello \x7bname\x7d!").toList, []⟩
        [("name".toList, "World".toList)] =
      Except.ok (("Hello World!").toList) := by
  have h := (C4_render_validation ⟨("Hello \x7bname\x7d!").toList, []⟩
      [("name".toList, "World".toList)]).1
  have hraw : renderRawL ⟨("Hello \x7bname\x7d!").toList, []⟩
      [("name".toList, "World".toList)] true = ("Hello World!").toList := by
    simp [renderRawL, mergeReps, lookupRep, substAll, replaceAllL, startsWith,
      trimL, isWsC, List.dropWhile]
  rw [hraw] at h
  exact h.mpr (by simp [scanPH, tryClose, goClose])

/-- **C9.** The string produced by `Template.render` (and the value of the
template produced by `partialRender`) is the substituted string after
trimming leading and trailing whitespace, so a template with surrounding
whitespace never round-trips unchanged, even under an empty substitution. -/
theorem C9_trimming (t : TemplateL) (reps : List (List Char × List Char)) :
    (∀ r, renderL t reps = .ok r →
      r = trimL (substAll (mergeReps t.replacements reps) t.value)) ∧
    (renderSubset t reps).value = trimL (substAll reps t.value) ∧
    (t.value ≠ trimL t.value → (renderSubset t []).value ≠ t.value) := by
  have hdef : renderL t reps =
      if scanPH (renderRawL t reps true) = [] then
        Except.ok (renderRawL t reps true)
      else
        Except.error ⟨t.value, renderRawL t reps true,
          scanPH (renderRawL t reps true)⟩ := rfl
  refine ⟨?_, rfl, ?_⟩
  · intro r hr
    rw [hdef] at hr
    by_cases h : scanPH (renderRawL t reps true) = []
    · rw [if_pos h] at hr
      cases hr
      rfl
    · rw [if_neg h] at hr
      cases hr
  · intro hne heq
    exact hne heq.symm

/-- Witness for C9: a template with surrounding spaces does not round-trip
through an empty partial render. -/
theorem C9_witness :
    (renderSubset ⟨(" hi ").toList, []⟩ []).value ≠ (" hi ").toList :=
  (C9_trimming ⟨(" hi ").toList, []⟩ []).2.2 (by decide)

/-- **C1** is false as stated: with a failing directory listing, discovery
does not yield an empty list of subcommands — the bundled default remote
script still contributes its command (here the repository's own
`init-deno.ts` descriptor). -/
theorem C1_counterexample :
    localPaths ⟨Except.error "ENOENT", fun _ =>
      [JsExport.obj true true ⟨"init-deno", "Initiates a Deno project."⟩]⟩ = [] ∧
    subcommands ⟨Except.error "ENOENT", fun _ =>
      [JsExport.obj true true ⟨"init-deno", "Initiates a Deno project."⟩]⟩ =
      [⟨"init-deno", "Initiates a Deno project."⟩] ∧
    subcommands ⟨Except.error "ENOENT", fun _ =>
      [JsExport.obj true true ⟨"init-deno", "Initiates a Deno project."⟩]⟩ ≠
      [] := by
  refine ⟨rfl, rfl, ?_⟩
  decide

/-- **C1 (amended).** If listing the scripts directory fails, the
catch-and-default helper degrades the local path list to the empty list, the
subcommand set is exactly the one discovered from the bundled default remote
scripts, and the root CLI still registers those commands and parses arguments
rather than aborting; the older runner `src/bin/run.ts`, which has no
catch-and-default helper, propagates the listing failure instead. -/
theorem C1_amended (w : World) (e : String) (args : List String)
    (h : w.listing = Except.error e) :
    localPaths w = [] ∧
    subcommands w = subcommandsOfPaths w defaultPaths ∧
    runCli w args =
      parseCli (registerSubcommands { commands := [] }
        (subcommandsOfPaths w defaultPaths)) args ∧
    subcommandsBinRun w = Except.error e := by
  have hlp : localPaths w = [] := by
    simp [localPaths, tryCatch, h]
  refine ⟨hlp, ?_, ?_, ?_⟩
  · simp [subcommands, hlp]
  · simp [runCli, subcommands, hlp]
  · simp [subcommandsBinRun, h, Except.map]

/-- Witness for C1 (amended), at a world whose listing fails and whose
default script exports the repository's `init-deno` descriptor. -/
theorem C1_amended_witness :
    localPaths ⟨Except.error "ENOENT", fun _ =>
      [JsExport.obj true true ⟨"init-deno", "Init."⟩]⟩ = [] ∧
    subcommands ⟨Except.error "ENOENT", fun _ =>
      [JsExport.obj true true ⟨"init-deno", "Init."⟩]⟩ =
      subcommandsOfPaths ⟨Except.error "ENOENT", fun _ =>
        [JsExport.obj true true ⟨"init-deno", "Init."⟩]⟩ defaultPaths ∧
    runCli ⟨Except.error "ENOENT", fun _ =>
      [JsExport.obj true true ⟨"init-deno", "Init."⟩]⟩ ["init-deno"] =
      parseCli (registerSubcommands ⟨[]⟩
        (subcommandsOfPaths ⟨Except.error "ENOENT", fun _ =>
          [JsExport.obj true true ⟨"init-deno", "Init."⟩]⟩ defaultPaths))
        ["init-deno"] ∧
    subcommandsBinRun ⟨Except.error "ENOENT", fun _ =>
      [JsExport.obj true true ⟨"init-deno", "Init."⟩]⟩ =
      Except.error "ENOENT" :=
  C1_amended _ "ENOENT" ["init-deno"] rfl

/-- **C2** is false as stated ("for every logger"): in the older logger
generation (`src/unnamed/part_003`), a `debug()` call on a logger configured
at `WARNING` severity is suppressed and returns a freshly default-constructed
record — logger name `"unknown"`, no level, no service fields, empty message —
not a fully populated one. -/
theorem C2_counterexample :
    (BaseLoggerOld.log (fun _ => "")
        ⟨SeverityName.Warning, "run", "production", none, none, none⟩
        "2024-01-01 00:00:00.000" [] [] [] ⟨0, 0, "", ""⟩
        SeverityName.Debug LevelName.Debug
        ⟨"hello", none, none, none, none⟩).1.logLogger = "unknown" ∧
    (BaseLoggerOld.log (fun _ => "")
        ⟨SeverityName.Warning, "run", "production", none, none, none⟩
        "2024-01-01 00:00:00.000" [] [] [] ⟨0, 0, "", ""⟩
        SeverityName.Debug LevelName.Debug
        ⟨"hello", none, none, none, none⟩).1.logLevel = none ∧
    (BaseLoggerOld.log (fun _ => "")
        ⟨SeverityName.Warning, "run", "production", none, none, none⟩
        "2024-01-01 00:00:00.000" [] [] [] ⟨0, 0, "", ""⟩
        SeverityName.Debug LevelName.Debug
        ⟨"hello", none, none, none, none⟩).1.serviceEnvironment = none ∧
    (BaseLoggerOld.log (fun _ => "")
        ⟨SeverityName.Warning, "run", "production", none, none, none⟩
        "2024-01-01 00:00:00.000" [] [] [] ⟨0, 0, "", ""⟩
        SeverityName.Debug LevelName.Debug
        ⟨"hello", none, none, none, none⟩).1.message = "" ∧
    (BaseLoggerOld.log (fun _ => "")
        ⟨SeverityName.Warning, "run", "production", none, none, none⟩
        "2024-01-01 00:00:00.000" [] [] [] ⟨0, 0, "", ""⟩
        SeverityName.Debug LevelName.Debug
        ⟨"hello", none, none, none, none⟩).2 = none :=
  ⟨rfl, rfl, rfl, rfl, rfl⟩

/-- **C2 (amended).** For the current logger (`src/tools/logger.ts`), every
log call builds and returns the fully populated record — timestamp, level,
logger name, origin, message and service fields all set — independently of
the configured severity; suppression only prevents the transport from being
invoked.  (The older logger generation instead returns a freshly
default-constructed record on a suppressed call.) -/
theorem C2_record_always_populated (format : LogObject → String) (s : Settings)
    (now : String) (procArgs : List String) (stack : List ExpandedCallSite)
    (origin : ExpandedCallSite) (severity : SeverityName) (level : LevelName)
    (options : LogOptions) :
    (∀ severity',
      (BaseLogger.log format s now procArgs stack origin severity level
        options).1 =
      (BaseLogger.log format s now procArgs stack origin severity' level
        options).1) ∧
    ((BaseLogger.log format s now procArgs stack origin severity level
        options).1.timestamp = now ∧
      (BaseLogger.log format s now procArgs stack origin severity level
        options).1.logLevel = some level ∧
      (BaseLogger.log format s now procArgs stack origin severity level
        options).1.message = options.message ∧
      (BaseLogger.log format s now procArgs stack origin severity level
        options).1.logLogger = loggerNameOf s ∧
      (BaseLogger.log format s now procArgs stack origin severity level
        options).1.originFileLine = origin.lineNumber ∧
      (BaseLogger.log format s now procArgs stack origin severity level
        options).1.originFileColumn = origin.columnNumber ∧
      (BaseLogger.log format s now procArgs stack origin severity level
        options).1.originFilePath = origin.fileName ∧
      (BaseLogger.log format s now procArgs stack origin severity level
        options).1.serviceEnvironment = some s.environment ∧
      (BaseLogger.log format s now procArgs stack origin severity level
        options).1.serviceName = some s.application ∧
      (BaseLogger.log format s now procArgs stack origin severity level
        options).1.serviceVersion = s.version ∧
      (BaseLogger.log format s now procArgs stack origin severity level
        options).1.serviceId = s.id) ∧
    (isSilentMode s severity = true →
      (BaseLogger.log format s now procArgs stack origin severity level
        options).2 = none) ∧
    (isSilentMode s severity = false →
      (BaseLogger.log format s now procArgs stack origin severity level
        options).2 =
        some (severity, format
          (BaseLogger.log format s now procArgs stack origin severity level
            options).1)) := by
  have hts : ∀ (e : Option ErrorInput) (rq : Option RequestInput)
      (rs : Option ResponseInput),
      (LogObject.construct now procArgs e rq rs stack).timestamp = now := by
    intro e rq rs
    cases e <;> cases rq <;> cases rs <;>
      simp only [LogObject.construct, LogObject.setErrorFields,
        LogObject.setRequestFields, LogObject.setResponseFields] <;>
      split <;> rfl
  have hfst : (BaseLogger.log format s now procArgs stack origin severity level
      options).1 =
      ((((LogObject.construct now procArgs options.error options.request
          options.response stack).setBaseFields
        options.message options.args none none).setLogFields
        level (loggerNameOf s) origin).setServiceFields
        s.environment (some s.application) s.version s.id) := by
    unfold BaseLogger.log
    split <;> rfl
  refine ⟨?_, ?_, ?_, ?_⟩
  · intro severity'
    unfold BaseLogger.log
    split <;> split <;> rfl
  · rw [hfst]
    exact ⟨hts options.error options.request options.response,
      rfl, rfl, rfl, rfl, rfl, rfl, rfl, rfl, rfl, rfl⟩
  · intro h
    simp [BaseLogger.log, h]
  · intro h
    simp [BaseLogger.log, h]

/-- Witness for C2 (amended): a suppressed `debug()` call on a
`WARNING`-configured current logger still returns the populated record and
invokes no transport. -/
theorem C2_witness :
    (BaseLogger.log (fun _ => "")
        ⟨SeverityName.Warning, "run", "production", none, none, none⟩
        "2024-01-01 00:00:00.000" [] [] ⟨"file:///a/b.ts", 3, 7⟩
        SeverityName.Debug LevelName.Debug
        ⟨"hello", none, none, none, none⟩).1.logLogger = "run" ∧
    (BaseLogger.log (fun _ => "")
        ⟨SeverityName.Warning, "run", "production", none, none, none⟩
        "2024-01-01 00:00:00.000" [] [] ⟨"file:///a/b.ts", 3, 7⟩
        SeverityName.Debug LevelName.Debug
        ⟨"hello", none, none, none, none⟩).1.serviceEnvironment =
      some "production" ∧
    (BaseLogger.log (fun _ => "")
        ⟨SeverityName.Warning, "run", "production", none, none, none⟩
        "2024-01-01 00:00:00.000" [] [] ⟨"file:///a/b.ts", 3, 7⟩
        SeverityName.Debug LevelName.Debug
        ⟨"hello", none, none, none, none⟩).2 = none := by
  have h := C2_record_always_populated (fun _ => "")
    ⟨SeverityName.Warning, "run", "production", none, none, none⟩
    "2024-01-01 00:00:00.000" [] [] ⟨"file:///a/b.ts", 3, 7⟩
    SeverityName.Debug LevelName.Debug ⟨"hello", none, none, none, none⟩
  exact ⟨h.2.1.2.2.2.1, h.2.1.2.2.2.2.2.2.2.1, h.2.2.1 (by decide)⟩

/-- **C8** is false as stated ("the log record"): the older logger generation
(`src/unnamed/part_003`) builds its record from an `Error` instance by
storing the error's `name` into `error.id` and never setting `error.code`. -/
theorem C8_counterexample :
    (LogObjectOld.construct "2024-01-01 00:00:00.000" []
        (some ⟨true, some "1234", some "abcd-efgh", some "Oops!",
          some "Error", none⟩) [] []).errorCode = none ∧
    (LogObjectOld.construct "2024-01-01 00:00:00.000" []
        (some ⟨true, some "1234", some "abcd-efgh", some "Oops!",
          some "Error", none⟩) [] []).errorId = some "Error" :=
  ⟨rfl, rfl⟩

/-- **C8 (amended).** For the current logger (`src/tools/logger.ts`) — the
generation the repository's tests exercise — a record constructed from an
error value whose `code` and `id` properties are set carries those exact
values on `error.code` and `error.id`, and a full `BaseLogger.log` call with
that error does too. -/
theorem C8_error_code_id (now : String) (procArgs : List String)
    (e : ErrorInput) (req : Option RequestInput) (res : Option ResponseInput)
    (stack : List ExpandedCallSite) (c i : String)
    (hc : e.code = some c) (hi : e.id = some i) :
    (LogObject.construct now procArgs (some e) req res stack).errorCode =
      some c ∧
    (LogObject.construct now procArgs (some e) req res stack).errorId =
      some i ∧
    ∀ (format : LogObject → String) (s : Settings)
      (origin : ExpandedCallSite) (severity : SeverityName)
      (level : LevelName) (message : String) (args : Option (List String))
      (rq : Option RequestInput) (rs : Option ResponseInput),
      (BaseLogger.log format s now procArgs stack origin severity level
        ⟨message, args, some e, rq, rs⟩).1.errorCode = some c ∧
      (BaseLogger.log format s now procArgs stack origin severity level
        ⟨message, args, some e, rq, rs⟩).1.errorId = some i := by
  have hcon : ∀ (rq : Option RequestInput) (rs : Option ResponseInput),
      (LogObject.construct now procArgs (some e) rq rs stack).errorCode =
        some c ∧
      (LogObject.construct now procArgs (some e) rq rs stack).errorId =
        some i := by
    intro rq rs
    cases rq <;> cases rs <;>
      simp only [LogObject.construct, LogObject.setErrorFields,
        LogObject.setRequestFields, LogObject.setResponseFields] <;>
      split <;> simp [hc, hi]
  refine ⟨(hcon req res).1, (hcon req res).2, ?_⟩
  intro format s origin severity level message args rq rs
  have hfst : (BaseLogger.log format s now procArgs stack origin severity level
      ⟨message, args, some e, rq, rs⟩).1 =
      ((((LogObject.construct now procArgs (some e) rq rs
          stack).setBaseFields message args none none).setLogFields
        level (loggerNameOf s) origin).setServiceFields
        s.environment (some s.application) s.version s.id) := by
    unfold BaseLogger.log
    split <;> rfl
  rw [hfst]
  exact ⟨(hcon rq rs).1, (hcon rq rs).2⟩

/-- Witness for C8 (amended), mirroring the repository's own logger test:
an error with `code = "1234"` and `id = "abcd-efgh"`. -/
theorem C8_witness :
    (LogObject.construct "t" []
        (some ⟨true, some "1234", some "abcd-efgh", some "Oops!",
          some "Error", none⟩) none none []).errorCode = some "1234" ∧
    (LogObject.construct "t" []
        (some ⟨true, some "1234", some "abcd-efgh", some "Oops!",
          some "Error", none⟩) none none []).errorId = some "abcd-efgh" := by
  have h := C8_error_code_id "t" []
    ⟨true, some "1234", some "abcd-efgh", some "Oops!", some "Error", none⟩
    none none [] "1234" "abcd-efgh" rfl rfl
  exact ⟨h.1, h.2.1⟩

theorem splitOnL_no_occur (d s : List Char) (hocc : hasOccur d s = false) :
    splitOnL d s = [s] := by
  induction s with
  | nil => simp [splitOnL]
  | cons c cs ih =>
    have h1 : startsWith d (c :: cs) = false := by
      cases hs : startsWith d (c :: cs)
      · rfl
      · rw [hasOccur, hs] at hocc
        simp at hocc
    have h2 : hasOccur d cs = false := by
      cases hs : hasOccur d cs
      · rfl
      · rw [hasOccur, hs] at hocc
        simp at hocc
    simp only [splitOnL]
    rw [if_neg (by simp [h1]), ih h2]
    rfl

theorem splitOnL_cons_delim (d rest : List Char) (hd : d ≠ []) :
    splitOnL d (d ++ rest) = [] :: splitOnL d rest := by
  cases d with
  | nil => exact absurd rfl hd
  | cons a d' =>
    show splitOnL (a :: d') (a :: (d' ++ rest)) = _
    simp only [splitOnL]
    rw [if_pos ⟨by simp, (startsWith_iff _ _).mpr ⟨rest, by simp⟩⟩]
    have hdrop : (a :: (d' ++ rest)).drop (a :: d').length = rest := by
      rw [← List.cons_append]
      exact List.drop_left _ _
    rw [hdrop]

theorem splitOnL_block (d b rest : List Char) (hd : d ≠ [])
    (hocc : hasOccur d (b ++ d.dropLast) = false) :
    splitOnL d (b ++ d ++ rest) = b :: splitOnL d rest := by
  induction b with
  | nil => simpa using splitOnL_cons_delim d rest hd
  | cons c b' ih =>
    have hg := List.dropLast_append_getLast hd
    have hnostart : startsWith d (c :: (b' ++ (d ++ rest))) = false := by
      cases hs : startsWith d (c :: (b' ++ (d ++ rest)))
      · rfl
      · exfalso
        obtain ⟨t, ht⟩ := (startsWith_iff _ _).mp hs
        have hshape : ((c :: b') ++ d.dropLast) ++ ([d.getLast hd] ++ rest) =
            d ++ t := by
          calc ((c :: b') ++ d.dropLast) ++ ([d.getLast hd] ++ rest)
              = (c :: b') ++ (d.dropLast ++ [d.getLast hd]) ++ rest := by
                simp [List.append_assoc]
            _ = (c :: b') ++ d ++ rest := by rw [hg]
            _ = c :: (b' ++ (d ++ rest)) := by simp
            _ = d ++ t := ht
        rcases List.append_eq_append_iff.mp hshape with ⟨e, he1, _⟩ | ⟨e, he1, _⟩
        · -- d = ((c :: b') ++ d.dropLast) ++ e: impossible by length unless the
          -- block is empty and then d occurs in (c :: b') ++ d.dropLast anyway
          have hlen := congrArg List.length he1
          simp [List.length_dropLast] at hlen
          have hdlen : 1 ≤ d.length := by
            cases d
            · exact absurd rfl hd
            · simp
          have hb' : b' = [] := by
            cases b'
            · rfl
            · exfalso; simp at hlen; omega
          have he : e = [] := by
            cases e
            · rfl
            · exfalso; simp [hb'] at hlen; omega
          rw [hb', he] at he1
          have : hasOccur d ((c :: b') ++ d.dropLast) = true := by
            rw [hb']
            exact (hasOccur_iff _ _).mpr ⟨[], [], by simpa using he1.symm⟩
          rw [this] at hocc
          cases hocc
        · have : hasOccur d ((c :: b') ++ d.dropLast) = true :=
            (hasOccur_iff _ _).mpr ⟨[], e, by simpa using he1⟩
          rw [this] at hocc
          cases hocc
    have h2 : hasOccur d (b' ++ d.dropLast) = false := by
      cases hs : hasOccur d (b' ++ d.dropLast)
      · rfl
      · rw [show (c :: b') ++ d.dropLast = c :: (b' ++ d.dropLast) from rfl,
          hasOccur, hs] at hocc
        simp at hocc
    rw [List.cons_append, List.cons_append]
    simp only [splitOnL]
    rw [if_neg (by simp [hnostart])]
    rw [show (b' ++ d) ++ rest = b' ++ d ++ rest from rfl, ih h2]
    rfl

theorem splitOnL_blocks (d : List Char) (hd : d ≠ []) :
    ∀ blocks : List (List Char),
      (∀ b ∈ blocks, hasOccur d (b ++ d.dropLast) = false) →
      splitOnL d ((blocks.map (fun b => d ++ b)).flatten) = [] :: blocks := by
  intro blocks
  induction blocks with
  | nil => intro _; simp [splitOnL]
  | cons b rest ih =>
    intro hb
    have hbhead : hasOccur d (b ++ d.dropLast) = false := hb b (by simp)
    have hbrest : ∀ x ∈ rest, hasOccur d (x ++ d.dropLast) = false :=
      fun x hx => hb x (by simp [hx])
    have hnob : hasOccur d b = false := by
      cases hs : hasOccur d b
      · rfl
      · rw [hasOccur_append_right d b d.dropLast hs] at hbhead
        cases hbhead
    cases rest with
    | nil =>
      simp only [List.map, List.flatten, List.append_nil]
      rw [splitOnL_cons_delim d b hd, splitOnL_no_occur d b hnob]
    | cons b2 rest' =>
      have hrest := ih hbrest
      have hflat : ((b2 :: rest').map (fun x => d ++ x)).flatten =
          d ++ (b2 ++ ((rest'.map (fun x => d ++ x)).flatten)) := by
        simp [List.append_assoc]
      rw [hflat] at hrest
      rw [splitOnL_cons_delim d _ hd] at hrest
      have htail : splitOnL d (b2 ++ ((rest'.map (fun x => d ++ x)).flatten)) =
          b2 :: rest' := by
        injection hrest
      have hflat2 : ((b :: b2 :: rest').map (fun x => d ++ x)).flatten =
          d ++ (b ++ (d ++ (b2 ++ ((rest'.map (fun x => d ++ x)).flatten)))) := by
        simp [List.append_assoc]
      rw [hflat2, splitOnL_cons_delim d _ hd]
      have : b ++ (d ++ (b2 ++ ((rest'.map (fun x => d ++ x)).flatten))) =
          b ++ d ++ (b2 ++ ((rest'.map (fun x => d ++ x)).flatten)) := by
        simp [List.append_assoc]
      rw [this, splitOnL_block d b _ hd hbhead, htail]

/-- **C6.** `Git.log` output parsing: the raw output is split at each
occurrence of the literal delimiter `{"hash"`, each piece is reconstituted by
re-prepending the delimiter, and each fragment is parsed into exactly one
commit record — one record per fragment, in the order the fragments appear.
Stated over any output assembled from delimiter-free fragment bodies. -/
theorem C6_log_split_parse {α : Type} (parse : List Char → α)
    (blocks : List (List Char)) (hne : ∀ b ∈ blocks, b ≠ [])
    (hocc : ∀ b ∈ blocks, hasOccur logDelim (b ++ logDelim.dropLast) = false) :
    parseLogOutputL parse ((blocks.map (fun b => logDelim ++ b)).flatten) =
      blocks.map (fun b => parse (logDelim ++ b)) := by
  unfold parseLogOutputL
  rw [splitOnL_blocks logDelim (by simp [logDelim]) blocks hocc]
  have hfilter : ([] :: blocks).filter (fun v => v ≠ []) = blocks := by
    rw [List.filter]
    simp only [decide_not, decide_eq_true_eq]
    rw [List.filter_eq_self.mpr]
    · rfl
    · intro a ha
      simpa using hne a ha
  rw [hfilter]

/-- Witness for C6: two fragment bodies produce exactly two records in
order. -/
theorem C6_witness :
    parseLogOutputL (fun l => l)
        (((([(":1\x7d").toList, (":2\x7d").toList]).map
          (fun b => logDelim ++ b)).flatten)) =
      [logDelim ++ (":1\x7d").toList, logDelim ++ (":2\x7d").toList] :=
  C6_log_split_parse (fun l => l) [(":1\x7d").toList, (":2\x7d").toList]
    (by decide) (by decide)

theorem replaceAllL_copy (pat rep p' : List Char) (hpat : pat = '{' :: p')
    (u v : List Char) (hu : ∀ a ∈ u, a ≠ '{') :
    replaceAllL pat rep (u ++ v) = u ++ replaceAllL pat rep v := by
  induction u with
  | nil => simp
  | cons a u' ih =>
    have hna : ¬(pat ≠ [] ∧ startsWith pat (a :: (u' ++ v)) = true) := by
      rintro ⟨-, hsw⟩
      rw [hpat] at hsw
      simp only [startsWith, Bool.and_eq_true, decide_eq_true_eq] at hsw
      exact hu a (by simp) hsw.1.symm
    rw [List.cons_append]
    simp only [replaceAllL]
    rw [if_neg hna, ih (fun x hx => hu x (by simp [hx]))]
    rfl

theorem startsWith_wrapped_key (k : List Char) :
    ∀ (m w : List Char), (∀ a ∈ k, a ≠ '}') → (∀ a ∈ m, a ≠ '}') →
      startsWith (k ++ ['}']) ((m ++ ['}']) ++ w) = true → k = m := by
  induction k with
  | nil =>
    intro m w _ hm hsw
    cases m with
    | nil => rfl
    | cons c m' =>
      exfalso
      simp only [List.nil_append, List.cons_append, startsWith,
        Bool.and_eq_true, decide_eq_true_eq] at hsw
      exact hm c (by simp) hsw.1.symm
  | cons a k' ih =>
    intro m w hk hm hsw
    cases m with
    | nil =>
      exfalso
      simp only [List.nil_append, List.cons_append, startsWith,
        Bool.and_eq_true, decide_eq_true_eq] at hsw
      exact hk a (by simp) hsw.1
    | cons c m' =>
      simp only [List.cons_append, startsWith, Bool.and_eq_true,
        decide_eq_true_eq] at hsw
      have hk' : k' = m' :=
        ih m' w (fun x hx => hk x (by simp [hx]))
          (fun x hx => hm x (by simp [hx])) hsw.2
      rw [hsw.1, hk']

theorem replaceAllL_keeps (k m rep : List Char)
    (hk : ∀ a ∈ k, a ≠ '{' ∧ a ≠ '}')
    (hm : ∀ a ∈ m, a ≠ '{' ∧ a ≠ '}')
    (hne : k ≠ m) :
    ∀ n (s : List Char), s.length ≤ n →
      (∃ u v, s = u ++ ('{' :: (m ++ ['}'])) ++ v) →
      ∃ u' v', replaceAllL ('{' :: (k ++ ['}'])) rep s =
        u' ++ ('{' :: (m ++ ['}'])) ++ v' := by
  intro n
  induction n with
  | zero =>
    rintro s hlen ⟨u, v, rfl⟩
    exfalso
    simp at hlen
  | succ n ih =>
    rintro s hlen ⟨u, v, rfl⟩
    cases u with
    | nil =>
      have hcond : ¬ startsWith ('{' :: (k ++ ['}']))
          ('{' :: ((m ++ ['}']) ++ v)) = true := by
        intro hs
        simp only [startsWith, Bool.and_eq_true, decide_eq_true_eq] at hs
        exact hne (startsWith_wrapped_key k m v
          (fun x hx => (hk x hx).2) (fun x hx => (hm x hx).2) hs.2)
      have hshape : ([] ++ ('{' :: (m ++ ['}']))) ++ v =
          '{' :: ((m ++ ['}']) ++ v) := by simp
      rw [hshape]
      simp only [replaceAllL]
      rw [if_neg (fun hc => hcond hc.2)]
      rw [replaceAllL_copy ('{' :: (k ++ ['}'])) rep (k ++ ['}']) rfl
        (m ++ ['}']) v
        (fun x hx => by
          rcases List.mem_append.mp hx with hx1 | hx1
          · exact (hm x hx1).1
          · simp at hx1
            rw [hx1]
            decide)]
      exact ⟨[], replaceAllL ('{' :: (k ++ ['}'])) rep v, by simp⟩
    | cons a u' =>
      have hshape : ((a :: u') ++ ('{' :: (m ++ ['}']))) ++ v =
          a :: (u' ++ ('{' :: (m ++ ['}'])) ++ v) := by simp
      rw [hshape]
      by_cases hsw : startsWith ('{' :: (k ++ ['}']))
          (a :: (u' ++ ('{' :: (m ++ ['}'])) ++ v)) = true
      · obtain ⟨w, hw⟩ := (startsWith_iff _ _).mp hsw
        have hlw : w.length ≤ n := by
          have := congrArg List.length hw
          simp at this hlen
          omega
        have hoccw : ∃ u2 v2, w = u2 ++ ('{' :: (m ++ ['}'])) ++ v2 := by
          have hw2 : (a :: u') ++ (('{' :: (m ++ ['}'])) ++ v) =
              ('{' :: (k ++ ['}'])) ++ w := by
            rw [← hw]
            simp
          rcases List.append_eq_append_iff.mp hw2 with ⟨e, he1, he2⟩ | ⟨e, he1, he2⟩
          · cases e with
            | nil =>
              exact ⟨[], v, by simpa using he2.symm⟩
            | cons b e' =>
              exfalso
              have hbmem : b ∈ k ++ ['}'] := by
                have := he1
                rw [show (a :: u') ++ (b :: e') = a :: (u' ++ (b :: e'))
                  from rfl] at this
                injection this with h1 h2
                rw [h2]
                simp
              have hbhead : b = '{' := by
                have := he2
                rw [show (b :: e') ++ w = b :: (e' ++ w) from rfl] at this
                injection this with h1 h2
                exact h1.symm
              rcases List.mem_append.mp hbmem with hb1 | hb1
              · exact (hk b hb1).1 hbhead
              · simp at hb1
                rw [hb1] at hbhead
                cases hbhead
          · exact ⟨e, v, by rw [he2]; simp⟩
        obtain ⟨u2, v2, hw3⟩ := hoccw
        obtain ⟨u3, v3, h3⟩ := ih w hlw ⟨u2, v2, hw3⟩
        rw [hw]
        have hpatshape : ('{' :: (k ++ ['}'])) ++ w =
            '{' :: ((k ++ ['}']) ++ w) := by simp
        rw [hpatshape]
        simp only [replaceAllL]
        rw [if_pos ⟨by simp, by rw [← hpatshape]; exact
          (startsWith_iff _ _).mpr ⟨w, rfl⟩⟩]
        have hdrop : ('{' :: ((k ++ ['}']) ++ w)).drop
            ('{' :: (k ++ ['}'])).length = w := by
          rw [← hpatshape]
          exact List.drop_left _ _
        rw [hdrop, h3]
        exact ⟨rep ++ u3, v3, by simp⟩
      · simp only [replaceAllL]
        rw [if_neg (fun hc => hsw hc.2)]
        have hlen' : (u' ++ ('{' :: (m ++ ['}'])) ++ v).length ≤ n := by
          simp at hlen ⊢
          omega
        obtain ⟨u3, v3, h3⟩ := ih _ hlen' ⟨u', v, rfl⟩
        rw [h3]
        exact ⟨a :: u3, v3, by simp⟩

theorem substAll_keeps (m : List Char) (hm : ∀ a ∈ m, a ≠ '{' ∧ a ≠ '}') :
    ∀ (R : List (List Char × List Char)) (v : List Char),
      (∀ kv ∈ R, (∀ a ∈ kv.1, a ≠ '{' ∧ a ≠ '}') ∧ kv.1 ≠ m) →
      (∃ u w, v = u ++ ('{' :: (m ++ ['}'])) ++ w) →
      ∃ u' w', substAll R v = u' ++ ('{' :: (m ++ ['}'])) ++ w' := by
  intro R
  induction R with
  | nil =>
    intro v _ h
    simpa [substAll] using h
  | cons kv R' ih =>
    intro v hR hocc
    have h1 := replaceAllL_keeps kv.1 m kv.2 (hR kv (by simp)).1 hm
      (hR kv (by simp)).2 v.length v le_rfl hocc
    exact ih _ (fun x hx => hR x (by simp [hx])) h1

theorem dropWhile_keeps {α : Type} (q : α → Bool) (c : α) (p' u v : List α)
    (hc : q c = false) :
    ∃ u', (u ++ (c :: p') ++ v).dropWhile q = u' ++ (c :: p') ++ v := by
  induction u with
  | nil =>
    refine ⟨[], ?_⟩
    simp [List.dropWhile, hc]
  | cons b u' ih =>
    rw [show ((b :: u') ++ (c :: p')) ++ v = b :: ((u' ++ (c :: p')) ++ v)
      from by simp]
    cases hqb : q b with
    | true =>
      obtain ⟨u2, hu2⟩ := ih
      refine ⟨u2, ?_⟩
      rw [List.dropWhile_cons, if_pos hqb]
      exact hu2
    | false =>
      refine ⟨b :: u', ?_⟩
      rw [List.dropWhile_cons, if_neg (by simp [hqb])]
      rfl

theorem trimL_keeps (m u v : List Char) :
    ∃ u' v', trimL (u ++ ('{' :: (m ++ ['}'])) ++ v) =
      u' ++ ('{' :: (m ++ ['}'])) ++ v' := by
  unfold trimL
  obtain ⟨u1, h1⟩ := dropWhile_keeps isWsC '{' (m ++ ['}']) u v (by decide)
  rw [h1]
  have hrev : ((u1 ++ ('{' :: (m ++ ['}']))) ++ v).reverse =
      (v.reverse ++ ('}' :: (m.reverse ++ ['{']))) ++ u1.reverse := by
    simp [List.reverse_append, List.append_assoc]
  rw [hrev]
  obtain ⟨u2, h2⟩ := dropWhile_keeps isWsC '}' (m.reverse ++ ['{'])
    v.reverse u1.reverse (by decide)
  rw [h2]
  refine ⟨u1, u2.reverse, ?_⟩
  simp [List.reverse_append, List.append_assoc]

/-- **C5.** `partialRender` substitutes only the placeholders named in the
given map (the stored defaults are not applied — the result does not depend
on them), every placeholder of the template not named in the map is still
present in the new template's string, and the new template's defaults are the
stored defaults restricted to the keys not in the map. -/
theorem C5_partial_render (val : List Char)
    (D D2 R : List (List Char × List Char)) (m : List Char)
    (hkeys : ∀ kv ∈ R, ∀ a ∈ kv.1, a ≠ '{' ∧ a ≠ '}')
    (hm : ∀ a ∈ m, a ≠ '{' ∧ a ≠ '}')
    (hnotin : ∀ kv ∈ R, kv.1 ≠ m)
    (hocc : ∃ u w, val = u ++ ('{' :: (m ++ ['}'])) ++ w) :
    (renderSubset ⟨val, D⟩ R).value = (renderSubset ⟨val, D2⟩ R).value ∧
    (∃ u' w', (renderSubset ⟨val, D⟩ R).value =
      u' ++ ('{' :: (m ++ ['}'])) ++ w') ∧
    (renderSubset ⟨val, D⟩ R).replacements =
      D.filter (fun kv => (lookupRep kv.1 R).isNone) := by
  refine ⟨rfl, ?_, rfl⟩
  obtain ⟨u1, w1, h1⟩ := substAll_keeps m hm R val
    (fun kv hkv => ⟨hkeys kv hkv, hnotin kv hkv⟩) hocc
  show ∃ u' w', trimL (substAll R val) = _
  rw [h1]
  exact trimL_keeps m u1 w1

/-- Witness for C5: substituting only `a` in `"{a} {b}"` leaves `{b}` in the
new template and drops `a`-independent defaults correctly. -/
theorem C5_witness :
    (renderSubset ⟨("\x7ba\x7d \x7bb\x7d").toList,
        [(("b").toList, ("y").toList)]⟩ [(("a").toList, ("x").toList)]).value =
      (renderSubset ⟨("\x7ba\x7d \x7bb\x7d").toList, []⟩
        [(("a").toList, ("x").toList)]).value ∧
    (∃ u' w', (renderSubset ⟨("\x7ba\x7d \x7bb\x7d").toList,
        [(("b").toList, ("y").toList)]⟩
        [(("a").toList, ("x").toList)]).value =
      u' ++ ('{' :: (("b").toList ++ ['}'])) ++ w') ∧
    (renderSubset ⟨("\x7ba\x7d \x7bb\x7d").toList,
        [(("b").toList, ("y").toList)]⟩
        [(("a").toList, ("x").toList)]).replacements =
      [(("b").toList, ("y").toList)].filter
        (fun kv => (lookupRep kv.1 [(("a").toList, ("x").toList)]).isNone) :=
  C5_partial_render ("\x7ba\x7d \x7bb\x7d").toList
    [(("b").toList, ("y").toList)] [] [(("a").toList, ("x").toList)]
    ("b").toList (by decide) (by decide) (by decide)
    ⟨("\x7ba\x7d ").toList, [], by decide⟩

theorem goClose_through (post : List Char) :
    ∀ (mid acc : List Char), (∀ a ∈ mid, a ≠ '}' ∧ isLineTerm a = false) →
      goClose acc (mid ++ '}' :: post) = some (acc.reverse ++ mid, post) := by
  intro mid
  induction mid with
  | nil =>
    intro acc _
    simp [goClose]
  | cons x xs ih =>
    intro acc hmid
    rw [List.cons_append]
    simp only [goClose]
    rw [if_neg (hmid x (by simp)).1,
      if_neg (by simp [(hmid x (by simp)).2])]
    rw [ih (x :: acc) (fun a ha => hmid a (by simp [ha]))]
    simp

theorem tryClose_name (name post : List Char) (hne : name ≠ [])
    (hname : ∀ a ∈ name, a ≠ '}' ∧ isLineTerm a = false) :
    tryClose (name ++ '}' :: post) = some (name, post) := by
  cases name with
  | nil => exact absurd rfl hne
  | cons c rest =>
    rw [List.cons_append]
    simp only [tryClose]
    rw [if_neg (by simp [(hname c (by simp)).2])]
    rw [goClose_through post rest [c] (fun a ha => hname a (by simp [ha]))]
    simp

theorem removeFirstC_wrapped (name : List Char) (h : ∀ a ∈ name, a ≠ '}') :
    removeFirstC '}' (name ++ ['}']) = name := by
  induction name with
  | nil => simp [removeFirstC]
  | cons a rest ih =>
    rw [List.cons_append]
    simp only [removeFirstC]
    rw [if_neg (h a (by simp)), ih (fun x hx => h x (by simp [hx]))]

theorem substituteL_copy (subs : List Char → JsVal) (u v : List Char)
    (hu : ∀ a ∈ u, a ≠ '{') :
    substituteL subs (u ++ v) = u ++ substituteL subs v := by
  induction u with
  | nil => simp
  | cons a u' ih =>
    rw [List.cons_append]
    simp only [substituteL]
    rw [if_neg (hu a (by simp))]
    rw [ih (fun x hx => hu x (by simp [hx]))]
    rfl

theorem substituteL_head (subs : List Char → JsVal) (name w : List Char)
    (hne : name ≠ [])
    (hname : ∀ a ∈ name, a ≠ '{' ∧ a ≠ '}' ∧ isLineTerm a = false) :
    substituteL subs (('{' :: (name ++ ['}'])) ++ w) =
      (if (subs name).falsy = true then '{' :: (name ++ ['}'])
        else jsValToString (subs name)) ++ substituteL subs w := by
  have hn2 : ∀ a ∈ name, a ≠ '}' ∧ isLineTerm a = false :=
    fun a ha => ⟨(hname a ha).2.1, (hname a ha).2.2⟩
  have htc : tryClose (name ++ '}' :: w) = some (name, w) :=
    tryClose_name name w hne hn2
  have hkey : removeFirstC '}'
      (removeFirstC '{' ('{' :: (name ++ ['}']))) = name := by
    simp only [removeFirstC, if_pos rfl]
    exact removeFirstC_wrapped name (fun a ha => (hname a ha).2.1)
  have harg : ('{' :: (name ++ ['}'])) ++ w =
      '{' :: (name ++ '}' :: w) := by simp
  rw [harg]
  simp only [substituteL]
  rw [if_pos trivial]
  split
  · rename_i content remaining heq
    rw [htc] at heq
    injection heq with heq2
    have hcont : content = name := (congrArg Prod.fst heq2).symm
    have hrem : remaining = w := (congrArg Prod.snd heq2).symm
    rw [hcont, hrem, hkey]
  · rename_i heq
    rw [htc] at heq
    cases heq

/-- **C10.** In pretty mode, a `{name}` placeholder whose substitution value
is falsy (`undefined`, the empty string, or the number `0` — e.g. an empty
message, or an origin column of 0) is left verbatim in the formatted output:
over any template assembled from brace-free literal text and placeholders,
`PrettyLogger.substitute` keeps the literal match text of every falsy
placeholder and replaces exactly the truthy ones. -/
theorem C10_falsy_keeps_placeholder (subs : List Char → JsVal)
    (segs : List (List Char × List Char)) (tail : List Char)
    (htxt : ∀ sg ∈ segs, ∀ a ∈ sg.1, a ≠ '{')
    (hnames : ∀ sg ∈ segs, sg.2 ≠ [] ∧
      ∀ a ∈ sg.2, a ≠ '{' ∧ a ≠ '}' ∧ isLineTerm a = false)
    (htail : ∀ a ∈ tail, a ≠ '{') :
    substituteL subs (buildTemplate segs tail) =
      substExpected subs segs tail := by
  induction segs with
  | nil =>
    have h := substituteL_copy subs tail [] htail
    simpa [buildTemplate, substExpected, substituteL] using h
  | cons sg rest ih =>
    obtain ⟨txt, name⟩ := sg
    have hshape : buildTemplate ((txt, name) :: rest) tail =
        txt ++ (('{' :: (name ++ ['}'])) ++ buildTemplate rest tail) := by
      simp [buildTemplate, List.append_assoc]
    rw [hshape]
    rw [substituteL_copy subs txt _ (fun a ha => htxt (txt, name) (by simp) a ha)]
    rw [substituteL_head subs name _ (hnames (txt, name) (by simp)).1
      (hnames (txt, name) (by simp)).2]
    rw [ih (fun sg hsg => htxt sg (by simp [hsg]))
      (fun sg hsg => hnames sg (by simp [hsg]))]
    simp [substExpected, List.append_assoc]

/-- Witness for C10: with `message` bound to the empty string (falsy), the
literal `{message}` text survives substitution while nothing else changes. -/
theorem C10_witness :
    substituteL
        (fun k => if k = ("message").toList then JsVal.vStr [] else JsVal.vNum 7)
        (buildTemplate [((("lvl ").toList), ("message").toList)]
          ((" end").toList)) =
      ("lvl \x7bmessage\x7d end").toList := by
  rw [C10_falsy_keeps_placeholder
    (fun k => if k = ("message").toList then JsVal.vStr [] else JsVal.vNum 7)
    [((("lvl ").toList), ("message").toList)] ((" end").toList)
    (by decide) (by decide) (by decide)]
  decide

end DevToolkit
